import Mathlib

/-!
Shallow embedding of `src/borrow.rs` (runtime borrow counter of the `hecs`
entity-component store, plus the guard types built on it).

The borrow counter of either backend is a single `usize` value; we model it
as a `Nat` together with explicit reduction modulo `2 ^ 64` wherever the Rust
code relies on wrapping `usize` arithmetic (64-bit target).  A `core::panic!`
is modelled by returning `none`.  The `debug_assert!` conditions of the two
release operations are compiled out in optimized builds while the state
mutation always happens, so each release operation is modelled as a total
state transformer paired with a separate boolean predicate holding exactly
when its debug assertions pass.
-/

/-- `usize::MAX + 1` on the 64-bit target: all counter arithmetic wraps at
this modulus. -/
def USIZE_MOD : Nat := 2 ^ 64

/-- `const UNIQUE_BIT: usize = !(usize::max_value() >> 1)`: the top bit of a
64-bit `usize`, i.e. `2 ^ 63`. -/
def UNIQUE_BIT : Nat := 2 ^ 63

/-- `!UNIQUE_BIT` on 64-bit `usize`: the mask of the 63 low (shared-count)
bits, i.e. `2 ^ 63 - 1`. -/
def NOT_UNIQUE_BIT : Nat := (USIZE_MOD - 1) ^^^ UNIQUE_BIT

/-- Spec-level observer: the shared-borrow count stored in the 63 low bits
of a counter state. -/
def sharedCount (s : Nat) : Nat := s % UNIQUE_BIT

/-- Spec-level observer: the code's test `value & UNIQUE_BIT != 0` for the
exclusive flag. -/
def uniqueBitSet (s : Nat) : Bool := s &&& UNIQUE_BIT != 0

/-- `atomic::Borrow::borrow`: `fetch_add(1)` (wrapping), panic if the new
value wrapped to `0`; if the new value has `UNIQUE_BIT` set, roll back with
`fetch_sub(1)` and return `false`; otherwise return `true`.  The result is
`none` on panic, otherwise the returned `bool` and the final counter state. -/
def atomic.borrow (s : Nat) : Option (Bool × Nat) :=
  let value := (s + 1) % USIZE_MOD
  if value = 0 then none
  else if value &&& UNIQUE_BIT ≠ 0 then some (false, (value + (USIZE_MOD - 1)) % USIZE_MOD)
  else some (true, value)

/-- `atomic::Borrow::borrow_mut`: `compare_exchange(0, UNIQUE_BIT)`. -/
def atomic.borrow_mut (s : Nat) : Bool × Nat :=
  if s = 0 then (true, UNIQUE_BIT) else (false, s)

/-- `atomic::Borrow::release`: `fetch_sub(1)` (wrapping) — the state change
performed in every build. -/
def atomic.release (s : Nat) : Nat := (s + (USIZE_MOD - 1)) % USIZE_MOD

/-- The `debug_assert!` conditions of `atomic::Borrow::release`, evaluated on
the pre-state: `value != 0` and `value & UNIQUE_BIT == 0`. -/
def atomic.release_check (s : Nat) : Bool := s != 0 && s &&& UNIQUE_BIT == 0

/-- `atomic::Borrow::release_mut`: `fetch_and(!UNIQUE_BIT)` — the state
change performed in every build. -/
def atomic.release_mut (s : Nat) : Nat := s &&& NOT_UNIQUE_BIT

/-- The `debug_assert_ne!` condition of `atomic::Borrow::release_mut`:
`value & UNIQUE_BIT != 0`. -/
def atomic.release_mut_check (s : Nat) : Bool := s &&& UNIQUE_BIT != 0

/-- `single_threaded::Borrow::borrow`: compute `value = get().wrapping_add(1)`,
panic if it wrapped to `0`; if `value` has `UNIQUE_BIT` set return `false`
leaving the cell untouched; otherwise store `value` and return `true`. -/
def single_threaded.borrow (s : Nat) : Option (Bool × Nat) :=
  let value := (s + 1) % USIZE_MOD
  if value = 0 then none
  else if value &&& UNIQUE_BIT ≠ 0 then some (false, s)
  else some (true, value)

/-- `single_threaded::Borrow::borrow_mut`: if the cell is `0` store
`UNIQUE_BIT` and return `true`, else return `false`. -/
def single_threaded.borrow_mut (s : Nat) : Bool × Nat :=
  if s = 0 then (true, UNIQUE_BIT) else (false, s)

/-- `single_threaded::Borrow::release`: store `value - 1` (`usize`
subtraction, which wraps modulo `2 ^ 64` in optimized builds). -/
def single_threaded.release (s : Nat) : Nat := (s + (USIZE_MOD - 1)) % USIZE_MOD

/-- The `debug_assert!` conditions of `single_threaded::Borrow::release`:
`value != 0` and `value & UNIQUE_BIT == 0`. -/
def single_threaded.release_check (s : Nat) : Bool := s != 0 && s &&& UNIQUE_BIT == 0

/-- `single_threaded::Borrow::release_mut`: store `value & !UNIQUE_BIT`. -/
def single_threaded.release_mut (s : Nat) : Nat := s &&& NOT_UNIQUE_BIT

/-- The `debug_assert_ne!` condition of `single_threaded::Borrow::release_mut`:
`value & UNIQUE_BIT != 0`. -/
def single_threaded.release_mut_check (s : Nat) : Bool := s &&& UNIQUE_BIT != 0

/-! Arithmetic characterisation of the bit operations on 64-bit states. -/

theorem NOT_UNIQUE_BIT_eq : NOT_UNIQUE_BIT = UNIQUE_BIT - 1 := by decide

theorem land_unique_of_lt {s : Nat} (h : s < UNIQUE_BIT) : s &&& UNIQUE_BIT = 0 := by
  have : s.testBit 63 = false := Nat.testBit_lt_two_pow h
  simpa [UNIQUE_BIT, this] using Nat.and_two_pow s 63

theorem land_unique_of_ge {s : Nat} (h1 : UNIQUE_BIT ≤ s) (h2 : s < USIZE_MOD) :
    s &&& UNIQUE_BIT = UNIQUE_BIT := by
  have hdiv : s / 2 ^ 63 = 1 := by
    have h1 : 2 ^ 63 ≤ s := h1
    have h2 : s < 2 ^ 64 := h2
    omega
  have : s.testBit 63 = true := by
    rw [Nat.testBit_to_div_mod, hdiv]
    decide
  simpa [UNIQUE_BIT, this] using Nat.and_two_pow s 63

theorem land_mask (s : Nat) : s &&& NOT_UNIQUE_BIT = s % UNIQUE_BIT := by
  rw [NOT_UNIQUE_BIT_eq]
  simpa [UNIQUE_BIT] using Nat.and_pow_two_sub_one_eq_mod s 63

theorem land_unique_iff {s : Nat} (h : s < USIZE_MOD) :
    (s &&& UNIQUE_BIT ≠ 0) ↔ UNIQUE_BIT ≤ s := by
  constructor
  · intro hne
    by_contra hlt
    exact hne (land_unique_of_lt (by omega))
  · intro hge
    rw [land_unique_of_ge hge h]
    simp [UNIQUE_BIT]

/-! Behaviour of `borrow` on each region of the 64-bit state space. -/

theorem borrow_spec_lt {s : Nat} (h : s + 1 < UNIQUE_BIT) :
    single_threaded.borrow s = some (true, s + 1) ∧ atomic.borrow s = some (true, s + 1) := by
  have hmod : (s + 1) % USIZE_MOD = s + 1 := by
    simp only [UNIQUE_BIT] at h
    simp only [USIZE_MOD]
    omega
  have hland : (s + 1) &&& UNIQUE_BIT = 0 := land_unique_of_lt h
  constructor <;> simp [single_threaded.borrow, atomic.borrow, hmod, hland]

theorem borrow_spec_ge {s : Nat} (h1 : UNIQUE_BIT ≤ s + 1) (h2 : s < USIZE_MOD - 1) :
    single_threaded.borrow s = some (false, s) ∧ atomic.borrow s = some (false, s) := by
  have hlt : s + 1 < USIZE_MOD := by
    simp only [USIZE_MOD] at h2 ⊢
    omega
  have hmod : (s + 1) % USIZE_MOD = s + 1 := Nat.mod_eq_of_lt hlt
  have hland : (s + 1) &&& UNIQUE_BIT = UNIQUE_BIT := land_unique_of_ge h1 hlt
  have hub : UNIQUE_BIT ≠ 0 := by decide
  have hback : (s + 1 + (USIZE_MOD - 1)) % USIZE_MOD = s := by
    simp only [USIZE_MOD] at h2 ⊢
    omega
  constructor <;> simp [single_threaded.borrow, atomic.borrow, hmod, hland, hub, hback]

theorem borrow_spec_wrap :
    single_threaded.borrow (USIZE_MOD - 1) = none ∧ atomic.borrow (USIZE_MOD - 1) = none := by
  constructor <;> decide

/-- C1 counterexample: `usize::MAX` is a state with the exclusive flag set,
yet `borrow` panics on it (both backends) instead of returning `false` with
the state unchanged, refuting the claim as stated. -/
theorem C1_counterexample :
    uniqueBitSet (USIZE_MOD - 1) = true ∧
    single_threaded.borrow (USIZE_MOD - 1) = none ∧
    atomic.borrow (USIZE_MOD - 1) = none := by
  refine ⟨by decide, borrow_spec_wrap.1, borrow_spec_wrap.2⟩

/-- C1 (amended): if the exclusive flag is clear and the shared count is below
its maximum, `borrow` returns `true` and increments the count by one; if the
exclusive flag is set and the state is not the all-ones value `usize::MAX`,
`borrow` returns `false` and leaves the state unchanged (at `usize::MAX` it
panics instead).  Both backends. -/
theorem C1_borrow_amended (s : Nat) (hs : s < USIZE_MOD) :
    (s &&& UNIQUE_BIT = 0 → s < UNIQUE_BIT - 1 →
      single_threaded.borrow s = some (true, s + 1) ∧
      atomic.borrow s = some (true, s + 1)) ∧
    (s &&& UNIQUE_BIT ≠ 0 → s ≠ USIZE_MOD - 1 →
      single_threaded.borrow s = some (false, s) ∧
      atomic.borrow s = some (false, s)) := by
  constructor
  · intro _ h2
    have : s + 1 < UNIQUE_BIT := by
      simp only [UNIQUE_BIT] at h2 ⊢
      omega
    exact borrow_spec_lt this
  · intro h1 h2
    have hge : UNIQUE_BIT ≤ s := (land_unique_iff hs).mp h1
    have hlt : s < USIZE_MOD - 1 := by
      simp only [USIZE_MOD] at hs h2 ⊢
      omega
    exact borrow_spec_ge (by omega) hlt

/-- C1 witness: concrete success at state `5` and concrete denial at state
`UNIQUE_BIT` (exclusive flag set). -/
theorem C1_witness :
    single_threaded.borrow 5 = some (true, 6) ∧ atomic.borrow 5 = some (true, 6) ∧
    single_threaded.borrow UNIQUE_BIT = some (false, UNIQUE_BIT) ∧
    atomic.borrow UNIQUE_BIT = some (false, UNIQUE_BIT) := by
  have h1 := (C1_borrow_amended 5 (by decide)).1 (by decide) (by decide)
  have h2 := (C1_borrow_amended UNIQUE_BIT (by decide)).2 (by decide) (by decide)
  exact ⟨h1.1, h1.2, h2.1, h2.2⟩

/-- C2: in both backends, `borrow_mut` succeeds exactly on the zero state, in
which case the new state is exactly `UNIQUE_BIT`; on every other state it
returns `false` and leaves the state unchanged. -/
theorem C2_borrow_mut_spec (s : Nat) (hs : s < USIZE_MOD) :
    ((single_threaded.borrow_mut s).1 = true ↔ s = 0) ∧
    ((atomic.borrow_mut s).1 = true ↔ s = 0) ∧
    (s = 0 → single_threaded.borrow_mut s = (true, UNIQUE_BIT) ∧
             atomic.borrow_mut s = (true, UNIQUE_BIT)) ∧
    (s ≠ 0 → single_threaded.borrow_mut s = (false, s) ∧
             atomic.borrow_mut s = (false, s)) := by
  by_cases h : s = 0
  · subst h
    simp [single_threaded.borrow_mut, atomic.borrow_mut]
  · simp [single_threaded.borrow_mut, atomic.borrow_mut, h]

/-- C2 witness: concrete success from the zero state and denial at state `7`. -/
theorem C2_witness :
    single_threaded.borrow_mut 0 = (true, UNIQUE_BIT) ∧
    atomic.borrow_mut 0 = (true, UNIQUE_BIT) ∧
    single_threaded.borrow_mut 7 = (false, 7) ∧
    atomic.borrow_mut 7 = (false, 7) := by
  have h0 := (C2_borrow_mut_spec 0 (by decide)).2.2.1 rfl
  have h7 := (C2_borrow_mut_spec 7 (by decide)).2.2.2 (by decide)
  exact ⟨h0.1, h0.2, h7.1, h7.2⟩

/-- C4 counterexample: with the shared count at its maximum representable
value `UNIQUE_BIT - 1` (exclusive flag clear), `borrow` returns normally with
`false` and an unchanged state in both backends — it does not panic, refuting
the claim as stated. -/
theorem C4_counterexample :
    single_threaded.borrow (UNIQUE_BIT - 1) = some (false, UNIQUE_BIT - 1) ∧
    atomic.borrow (UNIQUE_BIT - 1) = some (false, UNIQUE_BIT - 1) := by
  exact borrow_spec_ge (by decide) (by decide)

/-- C4 (amended): an `acquire_shared` whose increment would land on the
exclusive bit is denied (`false`, state unchanged), not a panic; the panic is
reached only when the counter wraps past `usize::MAX` to zero, i.e. only from
the all-ones pre-state.  Both backends. -/
theorem C4_overflow_amended (s : Nat) (h1 : s < USIZE_MOD) (h2 : s ≠ USIZE_MOD - 1) :
    single_threaded.borrow s ≠ none ∧ atomic.borrow s ≠ none ∧
    single_threaded.borrow (UNIQUE_BIT - 1) = some (false, UNIQUE_BIT - 1) ∧
    atomic.borrow (UNIQUE_BIT - 1) = some (false, UNIQUE_BIT - 1) ∧
    single_threaded.borrow (USIZE_MOD - 1) = none ∧
    atomic.borrow (USIZE_MOD - 1) = none := by
  have hmax : single_threaded.borrow (UNIQUE_BIT - 1) = some (false, UNIQUE_BIT - 1) ∧
      atomic.borrow (UNIQUE_BIT - 1) = some (false, UNIQUE_BIT - 1) :=
    borrow_spec_ge (by decide) (by decide)
  have hne : single_threaded.borrow s ≠ none ∧ atomic.borrow s ≠ none := by
    by_cases hU : s + 1 < UNIQUE_BIT
    · obtain ⟨e1, e2⟩ := borrow_spec_lt hU
      exact ⟨by simp [e1], by simp [e2]⟩
    · have hlt : s < USIZE_MOD - 1 := by
        simp only [USIZE_MOD] at h1 h2 ⊢
        omega
      obtain ⟨e1, e2⟩ := borrow_spec_ge (by omega) hlt
      exact ⟨by simp [e1], by simp [e2]⟩
  exact ⟨hne.1, hne.2, hmax.1, hmax.2, borrow_spec_wrap.1, borrow_spec_wrap.2⟩

/-- C4 witness: the amended statement applied at state `0`. -/
theorem C4_witness :
    single_threaded.borrow 0 ≠ none ∧
    single_threaded.borrow (UNIQUE_BIT - 1) = some (false, UNIQUE_BIT - 1) ∧
    single_threaded.borrow (USIZE_MOD - 1) = none := by
  have h := C4_overflow_amended 0 (by decide) (by decide)
  exact ⟨h.1, h.2.2.1, h.2.2.2.2.1⟩

/-- C5: viewed as sequential step functions on 64-bit counter states, the two
backends agree bit-for-bit on all four operations: same boolean result, same
final state, panic (`none`) on exactly the same inputs, and identical
`debug_assert!` conditions on the release operations. -/
theorem C5_backends_equal (s : Nat) (hs : s < USIZE_MOD) :
    atomic.borrow s = single_threaded.borrow s ∧
    atomic.borrow_mut s = single_threaded.borrow_mut s ∧
    atomic.release s = single_threaded.release s ∧
    atomic.release_check s = single_threaded.release_check s ∧
    atomic.release_mut s = single_threaded.release_mut s ∧
    atomic.release_mut_check s = single_threaded.release_mut_check s := by
  refine ⟨?_, rfl, rfl, rfl, rfl, rfl⟩
  by_cases hmax : s = USIZE_MOD - 1
  · subst hmax
    rw [borrow_spec_wrap.1, borrow_spec_wrap.2]
  · by_cases hU : s + 1 < UNIQUE_BIT
    · rw [(borrow_spec_lt hU).1, (borrow_spec_lt hU).2]
    · have hlt : s < USIZE_MOD - 1 := by
        simp only [USIZE_MOD] at hs hmax ⊢
        omega
      rw [(borrow_spec_ge (by omega) hlt).1, (borrow_spec_ge (by omega) hlt).2]

/-- C5 witness: agreement of the two backends at the concrete state `3`. -/
theorem C5_witness :
    atomic.borrow 3 = single_threaded.borrow 3 ∧
    atomic.borrow_mut 3 = single_threaded.borrow_mut 3 ∧
    atomic.release 3 = single_threaded.release 3 ∧
    atomic.release_mut 3 = single_threaded.release_mut 3 := by
  have h := C5_backends_equal 3 (by decide)
  exact ⟨h.1, h.2.1, h.2.2.1, h.2.2.2.2.1⟩

/-- C9: `release_mut` (`fetch_and(!UNIQUE_BIT)` resp. `set(value &
!UNIQUE_BIT)`) clears only the exclusive bit: for every counter state, the 63
low shared-count bits are unchanged and the exclusive bit of the result is
clear, in both backends. -/
theorem C9_release_mut_frame (s : Nat) :
    sharedCount (atomic.release_mut s) = sharedCount s ∧
    sharedCount (single_threaded.release_mut s) = sharedCount s ∧
    atomic.release_mut s &&& UNIQUE_BIT = 0 ∧
    single_threaded.release_mut s &&& UNIQUE_BIT = 0 := by
  have h1 : atomic.release_mut s = s % UNIQUE_BIT := land_mask s
  have h2 : single_threaded.release_mut s = s % UNIQUE_BIT := land_mask s
  have hlt : s % UNIQUE_BIT < UNIQUE_BIT := Nat.mod_lt _ (by decide)
  have hmm : s % UNIQUE_BIT % UNIQUE_BIT = s % UNIQUE_BIT := Nat.mod_eq_of_lt hlt
  exact ⟨by simp [sharedCount, h1, hmm], by simp [sharedCount, h2, hmm],
    by rw [h1]; exact land_unique_of_lt hlt, by rw [h2]; exact land_unique_of_lt hlt⟩

/-- C10: `borrow` panics exactly on the all-ones pre-state `usize::MAX` (both
backends); hence on every state satisfying the mutual-exclusion invariant
(`s ≤ UNIQUE_BIT`) it never panics, and whenever the incremented value lands
on the exclusive bit it returns `false` with no net state change. -/
theorem C10_panic_only_at_wrap (s : Nat) (hs : s < USIZE_MOD) :
    (single_threaded.borrow s = none ↔ s = USIZE_MOD - 1) ∧
    (atomic.borrow s = none ↔ s = USIZE_MOD - 1) ∧
    (s ≤ UNIQUE_BIT → single_threaded.borrow s ≠ none ∧ atomic.borrow s ≠ none) ∧
    (((s + 1) % USIZE_MOD) &&& UNIQUE_BIT ≠ 0 →
      single_threaded.borrow s = some (false, s) ∧ atomic.borrow s = some (false, s)) := by
  by_cases hmax : s = USIZE_MOD - 1
  · subst hmax
    refine ⟨by simp [borrow_spec_wrap.1], by simp [borrow_spec_wrap.2], ?_, ?_⟩
    · intro h
      exact absurd h (by decide)
    · intro h
      exact absurd h (by decide)
  · have hlt1 : s < USIZE_MOD - 1 := by
      simp only [USIZE_MOD] at hs hmax ⊢
      omega
    have hmod : (s + 1) % USIZE_MOD = s + 1 := by
      simp only [USIZE_MOD] at hlt1 ⊢
      omega
    by_cases hU : s + 1 < UNIQUE_BIT
    · obtain ⟨e1, e2⟩ := borrow_spec_lt hU
      refine ⟨by simp [e1, hmax], by simp [e2, hmax],
        fun _ => ⟨by simp [e1], by simp [e2]⟩, ?_⟩
      intro hl
      rw [hmod, land_unique_of_lt hU] at hl
      exact absurd rfl hl
    · have hge : UNIQUE_BIT ≤ s + 1 := by omega
      obtain ⟨e1, e2⟩ := borrow_spec_ge hge hlt1
      exact ⟨by simp [e1, hmax], by simp [e2, hmax],
        fun _ => ⟨by simp [e1], by simp [e2]⟩, fun _ => ⟨e1, e2⟩⟩

/-- C10 witness: at maximal shared count `UNIQUE_BIT - 1` the increment lands
on the exclusive bit and both backends deny without panic, and at state `0`
`borrow` does not panic. -/
theorem C10_witness :
    single_threaded.borrow (UNIQUE_BIT - 1) = some (false, UNIQUE_BIT - 1) ∧
    atomic.borrow (UNIQUE_BIT - 1) = some (false, UNIQUE_BIT - 1) ∧
    single_threaded.borrow 0 ≠ none := by
  have h := C10_panic_only_at_wrap (UNIQUE_BIT - 1) (by decide)
  have h0 := C10_panic_only_at_wrap 0 (by decide)
  exact ⟨(h.2.2.2 (by decide)).1, (h.2.2.2 (by decide)).2, (h0.2.2.1 (by decide)).1⟩

/-- Counter states reachable from the zero state by sequential calls of the
four operations: any `borrow`/`borrow_mut` call that returns (successful or
denied) steps to its post-state, and a release call steps whenever its
`debug_assert!` contract conditions hold (which over-approximates the
release-matched-to-a-prior-acquire sequences of the claim).  The single- and
multi-threaded backends are pointwise identical on `usize` states, so one
relation covers both. -/
inductive Reach : Nat → Prop where
  | init : Reach 0
  | borrow (s : Nat) (ok : Bool) (s2 : Nat) : Reach s →
      single_threaded.borrow s = some (ok, s2) → Reach s2
  | borrow_mut (s : Nat) (ok : Bool) (s2 : Nat) : Reach s →
      single_threaded.borrow_mut s = (ok, s2) → Reach s2
  | release (s : Nat) : Reach s →
      single_threaded.release_check s = true → Reach (single_threaded.release s)
  | release_mut (s : Nat) : Reach s →
      single_threaded.release_mut_check s = true → Reach (single_threaded.release_mut s)

theorem reach_le {s : Nat} (h : Reach s) : s ≤ UNIQUE_BIT := by
  induction h with
  | init => simp
  | borrow s ok s2 _ he ih =>
    by_cases hU : s + 1 < UNIQUE_BIT
    · have := (borrow_spec_lt hU).1.symm.trans he
      simp only [Option.some.injEq, Prod.mk.injEq] at this
      omega
    · by_cases hmax : s = USIZE_MOD - 1
      · exfalso
        have hbad : UNIQUE_BIT ≤ USIZE_MOD - 1 := by decide
        simp only [USIZE_MOD] at hmax
        simp only [UNIQUE_BIT, USIZE_MOD] at ih hbad
        omega
      · have hlt : s < USIZE_MOD - 1 := by
          have : s < USIZE_MOD := by
            simp only [UNIQUE_BIT, USIZE_MOD] at ih ⊢
            omega
          simp only [USIZE_MOD] at hmax this ⊢
          omega
        have := (borrow_spec_ge (by omega) hlt).1.symm.trans he
        simp only [Option.some.injEq, Prod.mk.injEq] at this
        omega
  | borrow_mut s ok s2 _ he ih =>
    simp only [single_threaded.borrow_mut] at he
    split at he <;> simp only [Prod.mk.injEq] at he <;> omega
  | release s _ hc ih =>
    simp only [single_threaded.release_check, Bool.and_eq_true, bne_iff_ne, beq_iff_eq] at hc
    have hslt : s < USIZE_MOD := by
      simp only [UNIQUE_BIT, USIZE_MOD] at ih ⊢
      omega
    have hsU : s < UNIQUE_BIT := by
      by_contra hge
      rw [land_unique_of_ge (by omega) hslt] at hc
      exact absurd hc.2 (by decide)
    simp only [single_threaded.release, USIZE_MOD, UNIQUE_BIT] at hsU hc ⊢
    omega
  | release_mut s _ _ ih =>
    rw [single_threaded.release_mut, land_mask]
    exact le_of_lt (Nat.mod_lt _ (by decide))

/-- C3: every counter state reachable from zero by a sequence of
borrow/borrow_mut/release/release_mut calls (releases respecting the contract)
never has the exclusive bit set together with a non-zero shared count. -/
theorem C3_invariant (s : Nat) (h : Reach s) :
    ¬(uniqueBitSet s = true ∧ sharedCount s ≠ 0) := by
  rintro ⟨h1, h2⟩
  have hle := reach_le h
  have hslt : s < USIZE_MOD := lt_of_le_of_lt hle (by decide)
  have hne : s &&& UNIQUE_BIT ≠ 0 := by simpa [uniqueBitSet] using h1
  have hge : UNIQUE_BIT ≤ s := (land_unique_iff hslt).mp hne
  have hs : s = UNIQUE_BIT := le_antisymm hle hge
  apply h2
  simp [hs, sharedCount]

/-- C3 witness: the state `UNIQUE_BIT`, reached from zero by one successful
`borrow_mut`, satisfies the invariant. -/
theorem C3_witness :
    ¬(uniqueBitSet UNIQUE_BIT = true ∧ sharedCount UNIQUE_BIT ≠ 0) :=
  C3_invariant UNIQUE_BIT (Reach.borrow_mut 0 true UNIQUE_BIT Reach.init rfl)

/-- `n` successive `single_threaded` shared acquires, all required to succeed
(`none` if any call panics or is denied). -/
def single_threaded.borrowN : Nat → Nat → Option Nat
  | 0, s => some s
  | n + 1, s =>
    match single_threaded.borrow s with
    | some (true, s2) => single_threaded.borrowN n s2
    | _ => none

/-- `n` successive `single_threaded` shared releases, each required to meet
the release contract conditions. -/
def single_threaded.releaseN : Nat → Nat → Option Nat
  | 0, s => some s
  | n + 1, s =>
    if single_threaded.release_check s = true then
      single_threaded.releaseN n (single_threaded.release s)
    else none

/-- `n` successive `atomic` shared acquires, all required to succeed. -/
def atomic.borrowN : Nat → Nat → Option Nat
  | 0, s => some s
  | n + 1, s =>
    match atomic.borrow s with
    | some (true, s2) => atomic.borrowN n s2
    | _ => none

/-- `n` successive `atomic` shared releases, each required to meet the
release contract conditions. -/
def atomic.releaseN : Nat → Nat → Option Nat
  | 0, s => some s
  | n + 1, s =>
    if atomic.release_check s = true then
      atomic.releaseN n (atomic.release s)
    else none

theorem borrowN_spec : ∀ n s, s + n ≤ UNIQUE_BIT - 1 →
    single_threaded.borrowN n s = some (s + n) ∧ atomic.borrowN n s = some (s + n)
  | 0, s, _ => by simp [single_threaded.borrowN, atomic.borrowN]
  | n + 1, s, h => by
    have hU : s + 1 < UNIQUE_BIT := by
      simp only [UNIQUE_BIT] at h ⊢
      omega
    obtain ⟨e1, e2⟩ := borrow_spec_lt hU
    have ih := borrowN_spec n (s + 1) (by omega)
    constructor
    · simp only [single_threaded.borrowN, e1]
      rw [ih.1]
      exact congrArg some (by omega)
    · simp only [atomic.borrowN, e2]
      rw [ih.2]
      exact congrArg some (by omega)

theorem releaseN_spec : ∀ n s, n ≤ s → s < UNIQUE_BIT →
    single_threaded.releaseN n s = some (s - n) ∧ atomic.releaseN n s = some (s - n)
  | 0, s, _, _ => by simp [single_threaded.releaseN, atomic.releaseN]
  | n + 1, s, h1, h2 => by
    have hchk : single_threaded.release_check s = true := by
      simp only [single_threaded.release_check, Bool.and_eq_true, bne_iff_ne, beq_iff_eq,
        land_unique_of_lt h2]
      exact ⟨by omega, trivial⟩
    have hrel : single_threaded.release s = s - 1 := by
      simp only [single_threaded.release, USIZE_MOD]
      simp only [UNIQUE_BIT] at h2
      omega
    have ih := releaseN_spec n (s - 1) (by omega) (by omega)
    constructor
    · simp only [single_threaded.releaseN, hchk, if_true, hrel]
      rw [ih.1]
      exact congrArg some (by omega)
    · simp only [atomic.releaseN, atomic.release_check, atomic.release]
      simp only [single_threaded.release_check] at hchk
      simp only [single_threaded.release, USIZE_MOD] at hrel
      simp only [hchk, if_true, USIZE_MOD, hrel]
      rw [ih.2]
      exact congrArg some (by omega)

/-- C6: for every `n` below the maximal representable shared count, `n`
successful shared acquires from the zero state followed by `n` releases
return the counter to exactly zero, in both backends. -/
theorem C6_roundtrip (n : Nat) (h : n < UNIQUE_BIT - 1) :
    (single_threaded.borrowN n 0).bind (single_threaded.releaseN n) = some 0 ∧
    (atomic.borrowN n 0).bind (atomic.releaseN n) = some 0 := by
  have hb := borrowN_spec n 0 (by omega)
  simp only [Nat.zero_add] at hb
  have hr := releaseN_spec n n (le_refl n) (by
    simp only [UNIQUE_BIT] at h ⊢
    omega)
  constructor
  · rw [hb.1, Option.some_bind, hr.1]
    exact congrArg some (by omega)
  · rw [hb.2, Option.some_bind, hr.2]
    exact congrArg some (by omega)

/-- C6 witness: three acquires and three releases from zero round-trip to
zero in both backends. -/
theorem C6_witness :
    (single_threaded.borrowN 3 0).bind (single_threaded.releaseN 3) = some 0 ∧
    (atomic.borrowN 3 0).bind (atomic.releaseN 3) = some 0 :=
  C6_roundtrip 3 (by decide)

/-- Modelled from the spec: the owning collection (`Archetype`, defined
outside `src/borrow.rs`) exposes, per storable type (types indexed by `Nat`),
`get_column<T>` — the base address of the type's column, absent when the type
has no column — and exactly one borrow counter per stored type (spec §6). -/
structure Archetype where
  columns : Nat → Option Nat
  state : Nat → Nat

/-- Modelled from the spec: `Archetype::borrow::<T>` forwards to the per-type
counter's shared acquire (`Borrow::borrow`); an acquire denial at a
guard-construction call site is a panic (spec §4.2, §7), modelled — like a
counter panic — as `none`.  On success the type's counter is updated. -/
def Archetype.borrow (a : Archetype) (ty : Nat) : Option Archetype :=
  match single_threaded.borrow (a.state ty) with
  | none => none
  | some (false, _) => none
  | some (true, s2) => some ⟨a.columns, fun t => if t = ty then s2 else a.state t⟩

/-- Modelled from the spec: `Archetype::borrow_mut::<T>` forwards to the
per-type counter's exclusive acquire (`Borrow::borrow_mut`); denial is a
panic (`none`). -/
def Archetype.borrow_mut (a : Archetype) (ty : Nat) : Option Archetype :=
  match single_threaded.borrow_mut (a.state ty) with
  | (false, _) => none
  | (true, s2) => some ⟨a.columns, fun t => if t = ty then s2 else a.state t⟩

/-- The *missing-element error* (`MissingComponent`), recording the requested
type. -/
structure MissingComponent where
  ty : Nat

/-- `Ref<T>`: a shared guard, holding the requested type and the element
address computed from the column base and the row index. -/
structure Ref where
  ty : Nat
  target : Nat

/-- `RefMut<T>`: an exclusive guard, same two fields. -/
structure RefMut where
  ty : Nat
  target : Nat

/-- `Ref::new(archetype, index)`: look up the column for `T`
(`archetype.get::<T>()`), failing with `MissingComponent` when absent;
otherwise compute the target address `base + index`, perform
`archetype.borrow::<T>()` (a panic propagates), and return the guard.  The
updated archetype carries the mutated counter. -/
def Ref.new (a : Archetype) (index : Nat) (ty : Nat) :
    Option (Except MissingComponent (Ref × Archetype)) :=
  match a.columns ty with
  | none => some (Except.error ⟨ty⟩)
  | some base =>
    match Archetype.borrow a ty with
    | none => none
    | some a2 => some (Except.ok (⟨ty, base + index⟩, a2))

/-- `RefMut::new(archetype, index)`: as `Ref.new`, with the exclusive
acquire. -/
def RefMut.new (a : Archetype) (index : Nat) (ty : Nat) :
    Option (Except MissingComponent (RefMut × Archetype)) :=
  match a.columns ty with
  | none => some (Except.error ⟨ty⟩)
  | some base =>
    match Archetype.borrow_mut a ty with
    | none => none
    | some a2 => some (Except.ok (⟨ty, base + index⟩, a2))

/-- `EntityRef`: an optional reference to the owning archetype plus a row
index. -/
structure EntityRef where
  archetype : Option Archetype
  index : Nat

/-- `EntityRef::empty()`: no archetype, index `0`. -/
def EntityRef.empty : EntityRef := ⟨none, 0⟩

/-- `EntityRef::get::<T>`: `None` when unbound (`self.archetype?`); otherwise
delegate to `Ref::new`, converting its `MissingComponent` error into `None`
(`.ok()?`).  The result pairs the optional guard with the post-call handle
(whose archetype carries any counter update); `none` is a propagated panic. -/
def EntityRef.get (r : EntityRef) (ty : Nat) : Option (Option Ref × EntityRef) :=
  match r.archetype with
  | none => some (none, r)
  | some a =>
    match Ref.new a r.index ty with
    | none => none
    | some (Except.error _) => some (none, r)
    | some (Except.ok (g, a2)) => some (some g, ⟨some a2, r.index⟩)

/-- `EntityRef::get_mut::<T>`: as `EntityRef.get`, via `RefMut::new`. -/
def EntityRef.get_mut (r : EntityRef) (ty : Nat) : Option (Option RefMut × EntityRef) :=
  match r.archetype with
  | none => some (none, r)
  | some a =>
    match RefMut.new a r.index ty with
    | none => none
    | some (Except.error _) => some (none, r)
    | some (Except.ok (g, a2)) => some (some g, ⟨some a2, r.index⟩)

/-- C7: on a handle built by `EntityRef::empty()`, `get` and `get_mut` return
`None` for every requested type, without panicking and without touching any
borrow counter (the returned handle is the unchanged empty handle, which
holds no archetype and hence no counters). -/
theorem C7_empty_get (ty : Nat) :
    EntityRef.get EntityRef.empty ty = some (none, EntityRef.empty) ∧
    EntityRef.get_mut EntityRef.empty ty = some (none, EntityRef.empty) :=
  ⟨rfl, rfl⟩

/-- C8: on a bound handle whose archetype has no column for the requested
type, guard construction fails with the missing-element error for that type,
`get`/`get_mut` swallow the error into `None`, and the archetype — including
every borrow counter — is returned unchanged: the acquire only happens after
a successful column lookup. -/
theorem C8_missing_column (a : Archetype) (i ty : Nat) (h : a.columns ty = none) :
    Ref.new a i ty = some (Except.error ⟨ty⟩) ∧
    RefMut.new a i ty = some (Except.error ⟨ty⟩) ∧
    EntityRef.get ⟨some a, i⟩ ty = some (none, ⟨some a, i⟩) ∧
    EntityRef.get_mut ⟨some a, i⟩ ty = some (none, ⟨some a, i⟩) := by
  have h1 : Ref.new a i ty = some (Except.error ⟨ty⟩) := by
    simp only [Ref.new, h]
  have h2 : RefMut.new a i ty = some (Except.error ⟨ty⟩) := by
    simp only [RefMut.new, h]
  refine ⟨h1, h2, ?_, ?_⟩
  · simp only [EntityRef.get, h1]
  · simp only [EntityRef.get_mut, h2]

/-- C8 witness: a concrete archetype with no columns at all; the lookup for
type `0` at row `0` is absent and the handle (hence every counter) is
unchanged. -/
theorem C8_witness :
    EntityRef.get ⟨some ⟨fun _ => none, fun _ => 0⟩, 0⟩ 0 =
      some (none, ⟨some ⟨fun _ => none, fun _ => 0⟩, 0⟩) ∧
    RefMut.new ⟨fun _ => none, fun _ => 0⟩ 0 0 = some (Except.error ⟨0⟩) := by
  have h := C8_missing_column ⟨fun _ => none, fun _ => 0⟩ 0 0 rfl
  exact ⟨h.2.2.1, h.2.1⟩
